import Mathlib

/-!
# Verification of the binlogsync streaming loop (storage/binlogsync/sync.go)

A shallow embedding of `Canal.startSyncBinlog` and `Canal.handleRowsEvent`
from `storage/binlogsync/sync.go` and of the debounced checkpoint persist
`Canal.masterSave` (from the canal source embedded in
`sql/dml/connection_pub_test.go`), together with models (from the spec) of
the collaborators whose code is not in the repository snapshot:
`travelRowsEventHandler`, `flushEventHandlers` and
`csdb.MasterStatus.Compare`.

The loop is embedded as a step function over a list of `GetEvent` outcomes;
each step returns either the next loop state or the fatal error that
terminates the loop, together with a trace of the observable calls the
iteration performed (waits, flush notifications, schema resolutions,
handler dispatches, position advances and checkpoint saves).
-/

namespace Binlogsync

/-- `csdb.MasterStatus` restricted to the two fields the sync loop and the
`Compare` test exercise: the binlog file (segment) name and the byte offset. -/
structure MasterStatus where
  File : String
  Position : Nat
deriving DecidableEq, Repr

/-- Modelled from the spec: `csdb.MasterStatus.Compare` (its Go source is not
in the snapshot; only `storage/csdb/replication_test.go` exercises it).
"Total order: compare `segment` lexicographically first; if equal, compare
`offset` numerically", returning -1, 0 or 1. -/
def MasterStatus.Compare (a b : MasterStatus) : Int :=
  if a.File < b.File then -1
  else if b.File < a.File then 1
  else if a.Position < b.Position then -1
  else if b.Position < a.Position then 1
  else 0

/-- Constant `UpdateAction` from sync.go. -/
def UpdateAction : String := "update"

/-- Constant `InsertAction` from sync.go. -/
def InsertAction : String := "insert"

/-- Constant `DeleteAction` from sync.go. -/
def DeleteAction : String := "delete"

/-- The replication event subtypes `handleRowsEvent` switches on
(`e.Header.EventType`); every subtype not named in the switch is collapsed
into the `OTHER_EVENT` default, tagged so distinct unknown subtypes stay
distinct. -/
inductive EventType
  | WRITE_ROWS_EVENTv1
  | WRITE_ROWS_EVENTv2
  | UPDATE_ROWS_EVENTv1
  | UPDATE_ROWS_EVENTv2
  | DELETE_ROWS_EVENTv1
  | DELETE_ROWS_EVENTv2
  | OTHER_EVENT (tag : Nat)
deriving DecidableEq, Repr

/-- The part of `replication.EventHeader` the loop reads: the subtype tag and
the trailing position `LogPos` of the event. -/
structure EventHeader where
  eventType : EventType
  LogPos : Nat
deriving DecidableEq, Repr

/-- A row image; the loop never inspects rows, it only forwards them. -/
abbrev Row := List Int

/-- The event bodies `startSyncBinlog` switches on: `RotateEvent` (with
`NextLogName` and `Position`), `RowsEvent` (with `Table.Schema`,
`Table.Table`, `TableID` and `Rows`), `TableMapEvent`, and everything else
(the switch has no default case, so other bodies fall through). -/
inductive EventData
  | RotateEvent (NextLogName : String) (Position : Nat)
  | RowsEvent (Schema : String) (Table : String) (TableID : Nat) (Rows : List Row)
  | TableMapEvent
  | OtherEvent
deriving DecidableEq, Repr

/-- `replication.BinlogEvent`: a header plus a body. -/
structure BinlogEvent where
  Header : EventHeader
  Event : EventData
deriving DecidableEq, Repr

/-- The errors flowing through the loop. `Wrap` mirrors `errors.Wrap`,
`NotSupported` mirrors `errors.NewNotSupportedf` in the classifier's default
branch, `CastFailed` the `errors.NewFatalf` on a failed type cast.
`TableError`, `HandlerError`, `FlushError` and `SourceError` stand for the
errors produced by the collaborators (schema lookup, row handlers, flush
handlers, and `GetEvent`). -/
inductive Err
  | NotSupported (tag : EventType)
  | CastFailed
  | TableError (code : Nat)
  | HandlerError (idx : Nat) (code : Nat)
  | FlushError (idx : Nat) (code : Nat)
  | SourceError (code : Nat)
  | Wrap (msg : String) (inner : Err)
deriving DecidableEq, Repr

/-- The table metadata returned by `Canal.FindTable`; the loop treats it as
opaque and forwards it to handlers. -/
structure Table where
  Name : String
deriving DecidableEq, Repr

/-- A registered `RowsEventHandler`: its `Do` reaction to a dispatched row
change (`none` = success, `some code` = the error it returns) and its
reaction to the flush notification. -/
structure RowsEventHandler where
  onRow : String → Table → List Row → Option Nat
  onFlush : Option Nat

/-- The fields of `Canal` the two embedded functions read: the configured
target database `c.dsn.DBName`, the registered handlers, and the
schema-cache lookup `c.FindTable` treated as an oracle collaborator. -/
structure Canal where
  dbName : String
  handlers : List RowsEventHandler
  findTable : Nat → String → Except Err Table

/-- One observable call performed by a loop iteration. -/
inductive Action
  | getEvent (waitSeconds : Nat)
  | flushHandler (idx : Nat) (visible : MasterStatus)
  | resolveTable (tableID : Nat) (table : String)
  | dispatch (idx : Nat) (action : String) (t : Table) (rows : List Row)
  | masterUpdate (file : String) (position : Nat)
  | masterSave (file : String) (position : Nat) (ok : Bool)
  | logSaveFailure (file : String) (position : Nat)
deriving DecidableEq, Repr

/-- Modelled from the spec: `Canal.travelRowsEventHandler` (not in the
snapshot). "Dispatch the resulting RowChangeEvent synchronously to every
registered handler, in registration order. The first handler to return an
error aborts dispatch for that event and is propagated up." `i` is the
registration index of the first handler in the remaining list. -/
def travelAux (action : String) (t : Table) (rows : List Row) :
    Nat → List RowsEventHandler → List Action × Option Err
  | _, [] => ([], none)
  | i, h :: rest =>
    match h.onRow action t rows with
    | some code => ([Action.dispatch i action t rows], some (Err.HandlerError i code))
    | none =>
      let r := travelAux action t rows (i + 1) rest
      (Action.dispatch i action t rows :: r.1, r.2)

/-- Modelled from the spec: `Canal.flushEventHandlers` (not in the
snapshot). "Invoke a flush notification on all handlers"; an error from a
handler is propagated, aborting the remaining notifications. `visible` is
the canal's master position at the time of the call, which a handler could
observe; it is recorded in the trace. -/
def flushAux (visible : MasterStatus) :
    Nat → List RowsEventHandler → List Action × Option Err
  | _, [] => ([], none)
  | i, h :: rest =>
    match h.onFlush with
    | some code => ([Action.flushHandler i visible], some (Err.FlushError i code))
    | none =>
      let r := flushAux visible (i + 1) rest
      (Action.flushHandler i visible :: r.1, r.2)

/-- `Canal.handleRowsEvent` from sync.go: cast check, database filter,
`FindTable` resolution, subtype classification, then dispatch. Returns the
trace of calls it performed and the error it returns (`none` = nil). -/
def handleRowsEvent (c : Canal) (e : BinlogEvent) : List Action × Option Err :=
  match e.Event with
  | EventData.RowsEvent schema table tableID rows =>
    if c.dbName ≠ schema then
      ([], none)
    else
      match c.findTable tableID table with
      | Except.error err =>
        ([Action.resolveTable tableID table],
          some (Err.Wrap ("[binlogsync] GetTable " ++ c.dbName ++ "." ++ table) err))
      | Except.ok t =>
        let action? : Option String :=
          match e.Header.eventType with
          | EventType.WRITE_ROWS_EVENTv1 | EventType.WRITE_ROWS_EVENTv2 => some InsertAction
          | EventType.DELETE_ROWS_EVENTv1 | EventType.DELETE_ROWS_EVENTv2 => some DeleteAction
          | EventType.UPDATE_ROWS_EVENTv1 | EventType.UPDATE_ROWS_EVENTv2 => some UpdateAction
          | _ => none
        match action? with
        | none =>
          ([Action.resolveTable tableID table], some (Err.NotSupported e.Header.eventType))
        | some action =>
          let r := travelAux action t rows 0 c.handlers
          (Action.resolveTable tableID table :: r.1, r.2)
  | _ => ([], some Err.CastFailed)

/-- The state threaded through loop iterations: the loop-local `pos`
variable, the canal's `masterStatus` (as set by `masterUpdate`), and the
loop-local `timeout` variable (in seconds). -/
structure LoopState where
  pos : MasterStatus
  master : MasterStatus
  timeout : Nat
deriving DecidableEq, Repr

/-- One `GetEvent` outcome handed to the loop: a `context.DeadlineExceeded`
timeout, another error, or a delivered event (`saveFails` is the outcome
the checkpoint store collaborator would give `masterSave` this iteration). -/
inductive StreamItem
  | timeoutItem
  | errorItem (code : Nat)
  | eventItem (ev : BinlogEvent) (saveFails : Bool)
deriving DecidableEq, Repr

/-- The tail every advancing iteration appends to its trace:
`c.masterUpdate(pos.File, pos.Position)` followed by `c.masterSave()`, whose
error is only logged. -/
def advanceTail (p : MasterStatus) (saveFails : Bool) : List Action :=
  Action.masterUpdate p.File p.Position ::
    Action.masterSave p.File p.Position (!saveFails) ::
      (if saveFails then [Action.logSaveFailure p.File p.Position] else [])

/-- The common end of an iteration that fell through the switch:
`masterUpdate` then `masterSave` (save errors only logged), continuing the
loop with master set to the current `pos`. -/
def finishIteration (s : LoopState) (saveFails : Bool) (acts : List Action) :
    (LoopState ⊕ Err) × List Action :=
  (Sum.inl { s with master := s.pos }, acts ++ advanceTail s.pos saveFails)

/-- One iteration of the `for` loop in `startSyncBinlog`, from the
`GetEvent` call to either `continue` (next state) or `return` (error). -/
def stepLoop (c : Canal) (s : LoopState) : StreamItem → (LoopState ⊕ Err) × List Action
  | StreamItem.timeoutItem =>
    (Sum.inl { s with timeout := 2 * s.timeout }, [Action.getEvent 2])
  | StreamItem.errorItem code =>
    (Sum.inr (Err.Wrap "[binlogsync] startSyncBinlog.GetEvent" (Err.SourceError code)),
      [Action.getEvent 2])
  | StreamItem.eventItem ev saveFails =>
    let s1 : LoopState :=
      { s with timeout := 1, pos := { s.pos with Position := ev.Header.LogPos } }
    match ev.Event with
    | EventData.RotateEvent nextLogName position =>
      let f := flushAux s1.master 0 c.handlers
      match f.2 with
      | some e =>
        (Sum.inr (Err.Wrap "[binlogsync] startSyncBinlog.flushEventHandlers" e),
          Action.getEvent 2 :: f.1)
      | none =>
        finishIteration { s1 with pos := { File := nextLogName, Position := position } }
          saveFails (Action.getEvent 2 :: f.1)
    | EventData.RowsEvent _ _ _ _ =>
      let h := handleRowsEvent c ev
      match h.2 with
      | some e =>
        (Sum.inr (Err.Wrap "[binlogsync] handleRowsEvent" e), Action.getEvent 2 :: h.1)
      | none => finishIteration s1 saveFails (Action.getEvent 2 :: h.1)
    | EventData.TableMapEvent => (Sum.inl s1, [Action.getEvent 2])
    | EventData.OtherEvent => finishIteration s1 saveFails [Action.getEvent 2]

/-- Runs the loop over a finite prefix of `GetEvent` outcomes, accumulating
the trace; stops early on a fatal error, exactly as the `return` statements
do. -/
def runLoopAux (c : Canal) (s : LoopState) : List StreamItem → (LoopState ⊕ Err) × List Action
  | [] => (Sum.inl s, [])
  | item :: rest =>
    match stepLoop c s item with
    | (Sum.inl s1, acts) =>
      let r := runLoopAux c s1 rest
      (r.1, acts ++ r.2)
    | (Sum.inr e, acts) => (Sum.inr e, acts)

/-- `startSyncBinlog`: `pos := c.masterStatus`, `timeout := time.Second`,
then the loop. -/
def startSyncBinlog (c : Canal) (start : MasterStatus) (items : List StreamItem) :
    (LoopState ⊕ Err) × List Action :=
  runLoopAux c { pos := start, master := start, timeout := 1 } items

/-- The Checkpoint Manager state behind `Canal.masterSave` (canal source in
sql/dml/connection_pub_test.go): `masterLastSaveTime`, the time of the last
successful persist, in milliseconds. -/
structure SaverState where
  masterLastSaveTime : Nat
deriving DecidableEq, Repr

/-- The outcome of one `masterSave` call: gated off because less than one
second passed since the last successful save (nil, no store call); no
config writer configured (debug log, nil, no store call); the store write
was issued and failed (wrapped error returned, `masterLastSaveTime`
unchanged); or the store write was issued and succeeded
(`masterLastSaveTime` set to now, nil). -/
inductive SaveResult
  | skippedRecent
  | noWriter
  | writeFailed
  | wrote
deriving DecidableEq, Repr

/-- `Canal.masterSave` from the canal source embedded in
sql/dml/connection_pub_test.go: return nil if `n.Sub(masterLastSaveTime)`
is under one second; return nil when `c.cfgw` is nil; otherwise call
`BackendPosition.Write` — on error return it wrapped, leaving
`masterLastSaveTime` unchanged; on success set `masterLastSaveTime := n`.
`hasWriter` models `c.cfgw != nil`; `writeFails` is the outcome the
checkpoint store gives this call's `Write`. -/
def masterSave (hasWriter writeFails : Bool) (st : SaverState) (now : Nat) :
    SaverState × SaveResult :=
  if now < st.masterLastSaveTime + 1000 then (st, SaveResult.skippedRecent)
  else if hasWriter = false then (st, SaveResult.noWriter)
  else if writeFails = true then (st, SaveResult.writeFailed)
  else ({ masterLastSaveTime := now }, SaveResult.wrote)

/-- Fold `masterSave` over a list of calls, each a timestamp (ms) paired
with whether the store's `Write` would fail at that call. -/
def masterSaveRun (hasWriter : Bool) (st : SaverState) :
    List (Nat × Bool) → List SaveResult
  | [] => []
  | c :: calls =>
    let r := masterSave hasWriter c.2 st c.1
    r.2 :: masterSaveRun hasWriter r.1 calls

/-- Did this `masterSave` outcome issue a call to the checkpoint store's
`Write` (successful or not)? -/
def touchesStore : SaveResult → Bool
  | SaveResult.writeFailed => true
  | SaveResult.wrote => true
  | _ => false

/-- The six row-event subtypes the classifier recognizes. -/
def rowSubtypes : List EventType :=
  [EventType.WRITE_ROWS_EVENTv1, EventType.WRITE_ROWS_EVENTv2,
    EventType.UPDATE_ROWS_EVENTv1, EventType.UPDATE_ROWS_EVENTv2,
    EventType.DELETE_ROWS_EVENTv1, EventType.DELETE_ROWS_EVENTv2]

/-- Is this action a position advance (`masterUpdate`) or a checkpoint save
(`masterSave`)? -/
def isAdvanceOrSave : Action → Bool
  | Action.masterUpdate _ _ => true
  | Action.masterSave _ _ _ => true
  | _ => false

/-- Is this action a schema resolution (`FindTable`) or a handler
dispatch? -/
def isResolveOrDispatch : Action → Bool
  | Action.resolveTable _ _ => true
  | Action.dispatch _ _ _ _ => true
  | _ => false

/-- Does this action respect "every `GetEvent` wait is bounded by exactly
two seconds"? Non-wait actions trivially do. -/
def waitIsTwo : Action → Bool
  | Action.getEvent n => n == 2
  | _ => true

/-- A handler that accepts every row change and every flush. -/
def okHandler : RowsEventHandler :=
  { onRow := fun _ _ _ => none, onFlush := none }

/-- A handler that rejects every row change with error code 7. -/
def errHandler : RowsEventHandler :=
  { onRow := fun _ _ _ => some 7, onFlush := none }

/-- A concrete canal for witnesses: target database "shop", one accepting
handler, every table lookup succeeds. -/
def exCanal : Canal :=
  { dbName := "shop", handlers := [okHandler],
    findTable := fun _ tbl => Except.ok { Name := tbl } }

/-- A concrete canal with three handlers, the second of which fails. -/
def canal3 : Canal :=
  { dbName := "shop", handlers := [okHandler, errHandler, okHandler],
    findTable := fun _ tbl => Except.ok { Name := tbl } }

/-- A concrete starting master status. -/
def ms0 : MasterStatus := { File := "mysql-bin.000001", Position := 4 }

/-- A concrete table-metadata event (tag 19 is TABLE_MAP_EVENT on the wire)
with trailing position 120. -/
def tableMapEv : BinlogEvent :=
  { Header := { eventType := EventType.OTHER_EVENT 19, LogPos := 120 },
    Event := EventData.TableMapEvent }

/-- A concrete uninterpreted event with trailing position 9. -/
def otherEv : BinlogEvent :=
  { Header := { eventType := EventType.OTHER_EVENT 4, LogPos := 9 },
    Event := EventData.OtherEvent }

/-- A concrete loop state. -/
def st0 : LoopState :=
  { pos := { File := "f2", Position := 3 }, master := { File := "f2", Position := 3 },
    timeout := 1 }

/-- C6: a `context.DeadlineExceeded` from `GetEvent` only doubles the (dead)
timeout variable and continues the loop with the remaining stream, while any
other `GetEvent` error terminates the loop immediately with the wrapped
fatal error. -/
theorem timeoutRetriesOtherErrorsFatal :
    ∀ (c : Canal) (s : LoopState) (code : Nat) (rest : List StreamItem),
    runLoopAux c s (StreamItem.timeoutItem :: rest) =
      ((runLoopAux c { s with timeout := 2 * s.timeout } rest).1,
        Action.getEvent 2 :: (runLoopAux c { s with timeout := 2 * s.timeout } rest).2) ∧
    runLoopAux c s (StreamItem.errorItem code :: rest) =
      (Sum.inr (Err.Wrap "[binlogsync] startSyncBinlog.GetEvent" (Err.SourceError code)),
        [Action.getEvent 2]) := by
  intro c s code rest
  constructor
  · simp [runLoopAux, stepLoop]
  · simp [runLoopAux, stepLoop]

/-- C4: a rows event whose database differs from the configured target
database is skipped: `handleRowsEvent` returns nil without any table
resolution or dispatch, and the iteration still advances the master
position to the event's trailing `LogPos` and attempts the save. -/
theorem foreignDatabaseSkipped :
    ∀ (c : Canal) (s : LoopState) (hdr : EventHeader) (schema table : String)
      (tid : Nat) (rows : List Row) (sf : Bool),
    c.dbName ≠ schema →
    handleRowsEvent c { Header := hdr, Event := EventData.RowsEvent schema table tid rows } =
      ([], none) ∧
    stepLoop c s (StreamItem.eventItem
        { Header := hdr, Event := EventData.RowsEvent schema table tid rows } sf) =
      (Sum.inl { pos := { File := s.pos.File, Position := hdr.LogPos },
                 master := { File := s.pos.File, Position := hdr.LogPos }, timeout := 1 },
        Action.getEvent 2 :: advanceTail { File := s.pos.File, Position := hdr.LogPos } sf) ∧
    ((stepLoop c s (StreamItem.eventItem
        { Header := hdr, Event := EventData.RowsEvent schema table tid rows } sf)).2.all
      (fun a => !(isResolveOrDispatch a))) = true := by
  intro c s hdr schema table tid rows sf hne
  have hh : handleRowsEvent c
      { Header := hdr, Event := EventData.RowsEvent schema table tid rows } = ([], none) := by
    simp [handleRowsEvent, hne]
  have hs : stepLoop c s (StreamItem.eventItem
      { Header := hdr, Event := EventData.RowsEvent schema table tid rows } sf) =
      (Sum.inl { pos := { File := s.pos.File, Position := hdr.LogPos },
                 master := { File := s.pos.File, Position := hdr.LogPos }, timeout := 1 },
        Action.getEvent 2 :: advanceTail { File := s.pos.File, Position := hdr.LogPos } sf) := by
    simp [stepLoop, hh, finishIteration]
  refine ⟨hh, hs, ?_⟩
  rw [hs]
  cases sf <;> rfl

/-- C4 witness: a rows event for database "other" while the canal targets
"shop" is skipped but still advances the position to offset 77. -/
theorem foreignDatabaseSkippedWitness :
    handleRowsEvent exCanal
      { Header := { eventType := EventType.OTHER_EVENT 30, LogPos := 77 },
        Event := EventData.RowsEvent "other" "orders" 5 [] } = ([], none) ∧
    stepLoop exCanal st0 (StreamItem.eventItem
        { Header := { eventType := EventType.OTHER_EVENT 30, LogPos := 77 },
          Event := EventData.RowsEvent "other" "orders" 5 [] } false) =
      (Sum.inl { pos := { File := "f2", Position := 77 },
                 master := { File := "f2", Position := 77 }, timeout := 1 },
        Action.getEvent 2 :: advanceTail { File := "f2", Position := 77 } false) ∧
    ((stepLoop exCanal st0 (StreamItem.eventItem
        { Header := { eventType := EventType.OTHER_EVENT 30, LogPos := 77 },
          Event := EventData.RowsEvent "other" "orders" 5 [] } false)).2.all
      (fun a => !(isResolveOrDispatch a))) = true :=
  foreignDatabaseSkipped exCanal st0 { eventType := EventType.OTHER_EVENT 30, LogPos := 77 }
    "other" "orders" 5 [] false (by decide)

/-- C1 counterexample: consuming a `TableMapEvent` hits the `continue` in
the switch, so the iteration performs neither `masterUpdate` nor
`masterSave`: the whole trace is just the `GetEvent` wait, and the canal's
master status is left at the starting position while only the loop-local
position moved to the event's trailing offset 120. -/
theorem tableMapAdvanceCx :
    (startSyncBinlog exCanal ms0 [StreamItem.eventItem tableMapEv false]).2 =
      [Action.getEvent 2] ∧
    ((startSyncBinlog exCanal ms0 [StreamItem.eventItem tableMapEv false]).2.all
      (fun a => !(isAdvanceOrSave a))) = true ∧
    (startSyncBinlog exCanal ms0 [StreamItem.eventItem tableMapEv false]).1 =
      Sum.inl { pos := { File := "mysql-bin.000001", Position := 120 }, master := ms0,
                timeout := 1 } := by
  refine ⟨rfl, rfl, rfl⟩

/-- C1 amended: every consumed event except a `TableMapEvent` ends its
iteration with `masterUpdate` (to the loop-local position, which carries the
event's trailing offset) immediately followed by `masterSave`; a
`TableMapEvent` is consumed via `continue`, records the trailing offset only
in the loop-local position, and skips both calls. -/
theorem advanceAfterEveryNonTableMapEvent :
    ∀ (c : Canal) (s : LoopState) (ev : BinlogEvent) (sf : Bool),
    (∀ s1 acts, ev.Event ≠ EventData.TableMapEvent →
      stepLoop c s (StreamItem.eventItem ev sf) = (Sum.inl s1, acts) →
      s1.master = s1.pos ∧ ∃ pre, acts = pre ++ advanceTail s1.pos sf) ∧
    (ev.Event = EventData.TableMapEvent →
      stepLoop c s (StreamItem.eventItem ev sf) =
        (Sum.inl { pos := { File := s.pos.File, Position := ev.Header.LogPos },
                   master := s.master, timeout := 1 }, [Action.getEvent 2])) := by
  intro c s ev sf
  obtain ⟨hdr, body⟩ := ev
  constructor
  · intro s1 acts hne hstep
    cases body with
    | RotateEvent nextLogName position =>
      rcases hflush : (flushAux s.master 0 c.handlers).2 with _ | e
      · simp [stepLoop, hflush, finishIteration] at hstep
        obtain ⟨hs1, hacts⟩ := hstep
        subst hs1
        exact ⟨rfl, ⟨Action.getEvent 2 :: (flushAux s.master 0 c.handlers).1, hacts.symm⟩⟩
      · simp [stepLoop, hflush] at hstep
    | RowsEvent schema table tid rows =>
      rcases hh : (handleRowsEvent c ⟨hdr, EventData.RowsEvent schema table tid rows⟩).2 with _ | e
      · simp [stepLoop, hh, finishIteration] at hstep
        obtain ⟨hs1, hacts⟩ := hstep
        subst hs1
        refine ⟨rfl, ⟨Action.getEvent 2 ::
          (handleRowsEvent c ⟨hdr, EventData.RowsEvent schema table tid rows⟩).1, hacts.symm⟩⟩
      · simp [stepLoop, hh] at hstep
    | TableMapEvent => exact absurd rfl hne
    | OtherEvent =>
      simp [stepLoop, finishIteration] at hstep
      obtain ⟨hs1, hacts⟩ := hstep
      subst hs1
      exact ⟨rfl, ⟨[Action.getEvent 2], hacts.symm⟩⟩
  · intro hbody
    cases body with
    | TableMapEvent => simp [stepLoop]
    | RotateEvent nextLogName position => cases hbody
    | RowsEvent schema table tid rows => cases hbody
    | OtherEvent => cases hbody

/-- C1 amended witness: an uninterpreted event with trailing offset 9
advances and saves; the concrete `TableMapEvent` does not. -/
theorem advanceAfterEveryNonTableMapEventWitness :
    ((LoopState.mk { File := "f2", Position := 9 } { File := "f2", Position := 9 } 1).master =
      (LoopState.mk { File := "f2", Position := 9 } { File := "f2", Position := 9 } 1).pos ∧
      ∃ pre, Action.getEvent 2 :: advanceTail { File := "f2", Position := 9 } false =
        pre ++ advanceTail
          (LoopState.mk { File := "f2", Position := 9 } { File := "f2", Position := 9 } 1).pos
          false) ∧
    stepLoop exCanal st0 (StreamItem.eventItem tableMapEv false) =
      (Sum.inl { pos := { File := st0.pos.File, Position := tableMapEv.Header.LogPos },
                 master := st0.master, timeout := 1 }, [Action.getEvent 2]) :=
  ⟨(advanceAfterEveryNonTableMapEvent exCanal st0 otherEv false).1
      (LoopState.mk { File := "f2", Position := 9 } { File := "f2", Position := 9 } 1)
      (Action.getEvent 2 :: advanceTail { File := "f2", Position := 9 } false)
      (by decide) rfl,
    (advanceAfterEveryNonTableMapEvent exCanal st0 tableMapEv false).2 rfl⟩

lemma stepLoop_save_first_indep (c : Canal) (s : LoopState) (ev : BinlogEvent) :
    (stepLoop c s (StreamItem.eventItem ev true)).1 =
      (stepLoop c s (StreamItem.eventItem ev false)).1 := by
  obtain ⟨hdr, body⟩ := ev
  cases body with
  | RotateEvent n p =>
    rcases hflush : (flushAux s.master 0 c.handlers).2 with _ | e <;>
      simp [stepLoop, hflush, finishIteration]
  | RowsEvent schema table tid rows =>
    rcases hh : (handleRowsEvent c ⟨hdr, EventData.RowsEvent schema table tid rows⟩).2 with _ | e <;>
      simp [stepLoop, hh, finishIteration]
  | TableMapEvent => rfl
  | OtherEvent => rfl

lemma stepLoop_event_advance (c : Canal) (s : LoopState) (hdr : EventHeader)
    (body : EventData) (sf : Bool) (s1 : LoopState) (acts : List Action)
    (hne : body ≠ EventData.TableMapEvent)
    (hstep : stepLoop c s (StreamItem.eventItem ⟨hdr, body⟩ sf) = (Sum.inl s1, acts)) :
    s1.master = s1.pos ∧ ∃ pre, acts = pre ++ advanceTail s1.pos sf := by
  cases body with
  | RotateEvent nextLogName position =>
    rcases hflush : (flushAux s.master 0 c.handlers).2 with _ | e
    · simp [stepLoop, hflush, finishIteration] at hstep
      obtain ⟨hs1, hacts⟩ := hstep
      subst hs1
      exact ⟨rfl, ⟨Action.getEvent 2 :: (flushAux s.master 0 c.handlers).1, hacts.symm⟩⟩
    · simp [stepLoop, hflush] at hstep
  | RowsEvent schema table tid rows =>
    rcases hh : (handleRowsEvent c ⟨hdr, EventData.RowsEvent schema table tid rows⟩).2 with _ | e
    · simp [stepLoop, hh, finishIteration] at hstep
      obtain ⟨hs1, hacts⟩ := hstep
      subst hs1
      refine ⟨rfl, ⟨Action.getEvent 2 ::
        (handleRowsEvent c ⟨hdr, EventData.RowsEvent schema table tid rows⟩).1, hacts.symm⟩⟩
    · simp [stepLoop, hh] at hstep
  | TableMapEvent => exact absurd rfl hne
  | OtherEvent =>
    simp [stepLoop, finishIteration] at hstep
    obtain ⟨hs1, hacts⟩ := hstep
    subst hs1
    exact ⟨rfl, ⟨[Action.getEvent 2], hacts.symm⟩⟩

/-- C10: a `masterSave` failure is never fatal: the loop outcome (continue
or terminate, and the successor state) is identical whether or not the
checkpoint save fails, the loop proceeds to the rest of the stream either
way, and in an advancing iteration the failed save is followed only by the
log action. -/
theorem saveFailureNeverFatal :
    ∀ (c : Canal) (s : LoopState) (ev : BinlogEvent) (rest : List StreamItem),
    (stepLoop c s (StreamItem.eventItem ev true)).1 =
      (stepLoop c s (StreamItem.eventItem ev false)).1 ∧
    (runLoopAux c s (StreamItem.eventItem ev true :: rest)).1 =
      (runLoopAux c s (StreamItem.eventItem ev false :: rest)).1 ∧
    (∀ s1 acts, stepLoop c s (StreamItem.eventItem ev true) = (Sum.inl s1, acts) →
      ev.Event ≠ EventData.TableMapEvent →
      ∃ pre, acts = pre ++ [Action.masterUpdate s1.pos.File s1.pos.Position,
        Action.masterSave s1.pos.File s1.pos.Position false,
        Action.logSaveFailure s1.pos.File s1.pos.Position]) := by
  intro c s ev rest
  have h1 := stepLoop_save_first_indep c s ev
  refine ⟨h1, ?_, ?_⟩
  · rcases ht : stepLoop c s (StreamItem.eventItem ev true) with ⟨rt, at_⟩
    rcases hf : stepLoop c s (StreamItem.eventItem ev false) with ⟨rf, af⟩
    have hr : rt = rf := by rw [ht, hf] at h1; exact h1
    subst hr
    cases rt with
    | inl s1 => simp [runLoopAux, ht, hf]
    | inr e => simp [runLoopAux, ht, hf]
  · intro s1 acts hstep hne
    obtain ⟨hdr, body⟩ := ev
    obtain ⟨-, pre, hacts⟩ := stepLoop_event_advance c s hdr body true s1 acts hne hstep
    exact ⟨pre, hacts⟩

/-- C10 witness: the uninterpreted event with a failing save still continues
the loop, with the failed save logged after the advance. -/
theorem saveFailureNeverFatalWitness :
    (stepLoop exCanal st0 (StreamItem.eventItem otherEv true)).1 =
      (stepLoop exCanal st0 (StreamItem.eventItem otherEv false)).1 ∧
    (runLoopAux exCanal st0 [StreamItem.eventItem otherEv true]).1 =
      (runLoopAux exCanal st0 [StreamItem.eventItem otherEv false]).1 ∧
    ∃ pre, Action.getEvent 2 :: advanceTail { File := "f2", Position := 9 } true =
      pre ++ [Action.masterUpdate "f2" 9, Action.masterSave "f2" 9 false,
        Action.logSaveFailure "f2" 9] :=
  ⟨(saveFailureNeverFatal exCanal st0 otherEv []).1,
    (saveFailureNeverFatal exCanal st0 otherEv []).2.1,
    (saveFailureNeverFatal exCanal st0 otherEv []).2.2
      (LoopState.mk { File := "f2", Position := 9 } { File := "f2", Position := 9 } 1)
      (Action.getEvent 2 :: advanceTail { File := "f2", Position := 9 } true)
      rfl (by decide)⟩

lemma travelAux_waitIsTwo (hs : List RowsEventHandler) (action : String) (t : Table)
    (rows : List Row) : ∀ i, ((travelAux action t rows i hs).1.all waitIsTwo) = true := by
  induction hs with
  | nil => intro i; rfl
  | cons h rest ih =>
    intro i
    cases hr : h.onRow action t rows with
    | some code => simp [travelAux, hr, waitIsTwo]
    | none => simp [travelAux, hr, waitIsTwo, ih (i + 1)]

lemma flushAux_waitIsTwo (hs : List RowsEventHandler) (v : MasterStatus) :
    ∀ i, ((flushAux v i hs).1.all waitIsTwo) = true := by
  induction hs with
  | nil => intro i; rfl
  | cons h rest ih =>
    intro i
    cases hr : h.onFlush with
    | some code => simp [flushAux, hr, waitIsTwo]
    | none => simp [flushAux, hr, waitIsTwo, ih (i + 1)]

lemma advanceTail_waitIsTwo (p : MasterStatus) (sf : Bool) :
    ((advanceTail p sf).all waitIsTwo) = true := by
  cases sf <;> rfl

lemma handleRowsEvent_waitIsTwo (c : Canal) (e : BinlogEvent) :
    ((handleRowsEvent c e).1.all waitIsTwo) = true := by
  obtain ⟨⟨etype, logPos⟩, body⟩ := e
  cases body with
  | RowsEvent schema table tid rows =>
    by_cases hdb : c.dbName ≠ schema
    · simp [handleRowsEvent, hdb]
    · cases hft : c.findTable tid table with
      | error err => simp [handleRowsEvent, hdb, hft, waitIsTwo]
      | ok t =>
        cases etype <;>
          simp [handleRowsEvent, hdb, hft, waitIsTwo, travelAux_waitIsTwo]
  | RotateEvent n p => rfl
  | TableMapEvent => rfl
  | OtherEvent => rfl

lemma stepLoop_waitIsTwo (c : Canal) (s : LoopState) (item : StreamItem) :
    ((stepLoop c s item).2.all waitIsTwo) = true := by
  cases item with
  | timeoutItem => rfl
  | errorItem code => rfl
  | eventItem ev sf =>
    obtain ⟨hdr, body⟩ := ev
    cases body with
    | RotateEvent n p =>
      rcases hflush : (flushAux s.master 0 c.handlers).2 with _ | e <;>
        simp [stepLoop, hflush, finishIteration, waitIsTwo, flushAux_waitIsTwo,
          advanceTail_waitIsTwo]
    | RowsEvent schema table tid rows =>
      rcases hh : (handleRowsEvent c ⟨hdr, EventData.RowsEvent schema table tid rows⟩).2
          with _ | e
      · have hall := handleRowsEvent_waitIsTwo c ⟨hdr, EventData.RowsEvent schema table tid rows⟩
        simp [stepLoop, hh, finishIteration, waitIsTwo, advanceTail_waitIsTwo, hall]
      · have hall := handleRowsEvent_waitIsTwo c ⟨hdr, EventData.RowsEvent schema table tid rows⟩
        simp [stepLoop, hh, waitIsTwo, hall]
    | TableMapEvent => rfl
    | OtherEvent =>
      simp [stepLoop, finishIteration, waitIsTwo, advanceTail_waitIsTwo]

lemma runLoopAux_waitIsTwo (c : Canal) :
    ∀ (items : List StreamItem) (s : LoopState),
      ((runLoopAux c s items).2.all waitIsTwo) = true := by
  intro items
  induction items with
  | nil => intro s; rfl
  | cons item rest ih =>
    intro s
    have hstep := stepLoop_waitIsTwo c s item
    rcases h : stepLoop c s item with ⟨r, acts⟩
    rw [h] at hstep
    cases r with
    | inl s1 => simp [runLoopAux, h, List.all_append, hstep, ih s1]
    | inr e => simp [runLoopAux, h, hstep]

lemma stepLoop_event_timeout_irrel (c : Canal) (p m : MasterStatus) (t t' : Nat)
    (ev : BinlogEvent) (sf : Bool) :
    stepLoop c ⟨p, m, t⟩ (StreamItem.eventItem ev sf) =
      stepLoop c ⟨p, m, t'⟩ (StreamItem.eventItem ev sf) := by
  obtain ⟨hdr, body⟩ := ev
  cases body <;> simp [stepLoop]

lemma runLoopAux_trace_timeout_irrel (c : Canal) :
    ∀ (items : List StreamItem) (p m : MasterStatus) (t t' : Nat),
      (runLoopAux c ⟨p, m, t⟩ items).2 = (runLoopAux c ⟨p, m, t'⟩ items).2 := by
  intro items
  induction items with
  | nil => intro p m t t'; rfl
  | cons item rest ih =>
    intro p m t t'
    cases item with
    | timeoutItem =>
      simp only [runLoopAux, stepLoop]
      simp [ih p m (2 * t) (2 * t')]
    | errorItem code => rfl
    | eventItem ev sf =>
      have h := stepLoop_event_timeout_irrel c p m t t' ev sf
      simp only [runLoopAux]
      rw [h]

/-- C9: the doubling backoff variable is dead: the bounded wait handed to
`GetEvent` is two seconds on every iteration of every run, the variable is
indeed doubled on a wait-timeout, and the variable's value has no effect on
the observable trace of a run. -/
theorem waitAlwaysTwoSeconds :
    ∀ (c : Canal) (s : LoopState) (t : Nat) (items : List StreamItem),
    ((runLoopAux c s items).2.all waitIsTwo) = true ∧
    stepLoop c s StreamItem.timeoutItem =
      (Sum.inl { s with timeout := 2 * s.timeout }, [Action.getEvent 2]) ∧
    (runLoopAux c { s with timeout := t } items).2 = (runLoopAux c s items).2 := by
  intro c s t items
  obtain ⟨p, m, u⟩ := s
  exact ⟨runLoopAux_waitIsTwo c items ⟨p, m, u⟩, rfl,
    runLoopAux_trace_timeout_irrel c items p m t u⟩

lemma flushAux_mem (hs : List RowsEventHandler) (v : MasterStatus) :
    ∀ i, ∀ a ∈ (flushAux v i hs).1, ∃ j, a = Action.flushHandler j v := by
  induction hs with
  | nil => intro i a ha; cases ha
  | cons h rest ih =>
    intro i a ha
    cases hr : h.onFlush with
    | some code =>
      simp [flushAux, hr] at ha
      exact ⟨i, ha⟩
    | none =>
      simp only [flushAux, hr] at ha
      rcases List.mem_cons.mp ha with rfl | hmem
      · exact ⟨i, rfl⟩
      · exact ih (i + 1) a hmem

/-- C2: on a Rotate event the flush notification runs first, against the
pre-rotate master position (every flush action references `s.master`, which
`masterUpdate` has not yet touched), and only afterwards — and only if every
flush succeeded — is the position set to the event's `NextLogName` and
`Position` and advanced; a flush failure terminates the loop with the
position never set. -/
theorem rotateFlushBeforePositionUpdate :
    ∀ (c : Canal) (s : LoopState) (hdr : EventHeader) (nextName : String)
      (position : Nat) (sf : Bool),
    (∀ a ∈ (flushAux s.master 0 c.handlers).1, ∃ j, a = Action.flushHandler j s.master) ∧
    ((flushAux s.master 0 c.handlers).2 = none →
      stepLoop c s (StreamItem.eventItem ⟨hdr, EventData.RotateEvent nextName position⟩ sf) =
        (Sum.inl { pos := { File := nextName, Position := position },
                   master := { File := nextName, Position := position }, timeout := 1 },
          Action.getEvent 2 :: (flushAux s.master 0 c.handlers).1 ++
            advanceTail { File := nextName, Position := position } sf)) ∧
    (∀ e, (flushAux s.master 0 c.handlers).2 = some e →
      stepLoop c s (StreamItem.eventItem ⟨hdr, EventData.RotateEvent nextName position⟩ sf) =
        (Sum.inr (Err.Wrap "[binlogsync] startSyncBinlog.flushEventHandlers" e),
          Action.getEvent 2 :: (flushAux s.master 0 c.handlers).1)) := by
  intro c s hdr nextName position sf
  refine ⟨flushAux_mem c.handlers s.master 0, ?_, ?_⟩
  · intro hflush
    simp [stepLoop, hflush, finishIteration]
  · intro e hflush
    simp [stepLoop, hflush]

/-- C2 witness: with the single accepting handler, rotating to
"mysql-bin.000002" offset 4 first flushes against the old master ("f2", 3)
and then advances to the new segment. -/
theorem rotateFlushBeforePositionUpdateWitness :
    stepLoop exCanal st0 (StreamItem.eventItem
        ⟨{ eventType := EventType.OTHER_EVENT 4, LogPos := 200 },
          EventData.RotateEvent "mysql-bin.000002" 4⟩ false) =
      (Sum.inl { pos := { File := "mysql-bin.000002", Position := 4 },
                 master := { File := "mysql-bin.000002", Position := 4 }, timeout := 1 },
        Action.getEvent 2 :: (flushAux st0.master 0 exCanal.handlers).1 ++
          advanceTail { File := "mysql-bin.000002", Position := 4 } false) :=
  (rotateFlushBeforePositionUpdate exCanal st0
    { eventType := EventType.OTHER_EVENT 4, LogPos := 200 }
    "mysql-bin.000002" 4 false).2.1 rfl

/-- C3: for a rows event of the target database whose table resolves, the
classifier maps WRITE v1/v2 to the insert action, UPDATE v1/v2 to the
update action and DELETE v1/v2 to the delete action (dispatching with that
action string), and any other subtype yields the not-supported error, which
terminates the whole loop wrapped as the fatal handleRowsEvent error. -/
theorem rowsEventClassification :
    ∀ (c : Canal) (etype : EventType) (lp : Nat) (schema table : String) (tid : Nat)
      (rows : List Row) (t : Table) (s : LoopState) (sf : Bool) (rest : List StreamItem),
    c.dbName = schema → c.findTable tid table = Except.ok t →
    ((etype = EventType.WRITE_ROWS_EVENTv1 ∨ etype = EventType.WRITE_ROWS_EVENTv2) →
      handleRowsEvent c ⟨⟨etype, lp⟩, EventData.RowsEvent schema table tid rows⟩ =
        (Action.resolveTable tid table :: (travelAux InsertAction t rows 0 c.handlers).1,
          (travelAux InsertAction t rows 0 c.handlers).2)) ∧
    ((etype = EventType.UPDATE_ROWS_EVENTv1 ∨ etype = EventType.UPDATE_ROWS_EVENTv2) →
      handleRowsEvent c ⟨⟨etype, lp⟩, EventData.RowsEvent schema table tid rows⟩ =
        (Action.resolveTable tid table :: (travelAux UpdateAction t rows 0 c.handlers).1,
          (travelAux UpdateAction t rows 0 c.handlers).2)) ∧
    ((etype = EventType.DELETE_ROWS_EVENTv1 ∨ etype = EventType.DELETE_ROWS_EVENTv2) →
      handleRowsEvent c ⟨⟨etype, lp⟩, EventData.RowsEvent schema table tid rows⟩ =
        (Action.resolveTable tid table :: (travelAux DeleteAction t rows 0 c.handlers).1,
          (travelAux DeleteAction t rows 0 c.handlers).2)) ∧
    (etype ∉ rowSubtypes →
      handleRowsEvent c ⟨⟨etype, lp⟩, EventData.RowsEvent schema table tid rows⟩ =
        ([Action.resolveTable tid table], some (Err.NotSupported etype)) ∧
      runLoopAux c s (StreamItem.eventItem
          ⟨⟨etype, lp⟩, EventData.RowsEvent schema table tid rows⟩ sf :: rest) =
        (Sum.inr (Err.Wrap "[binlogsync] handleRowsEvent" (Err.NotSupported etype)),
          [Action.getEvent 2, Action.resolveTable tid table])) := by
  intro c etype lp schema table tid rows t s sf rest hdbeq hft
  subst hdbeq
  refine ⟨?_, ?_, ?_, ?_⟩
  · rintro (rfl | rfl) <;> simp [handleRowsEvent, hft]
  · rintro (rfl | rfl) <;> simp [handleRowsEvent, hft]
  · rintro (rfl | rfl) <;> simp [handleRowsEvent, hft]
  · intro hnot
    have hh : handleRowsEvent c
        ⟨⟨etype, lp⟩, EventData.RowsEvent c.dbName table tid rows⟩ =
        ([Action.resolveTable tid table], some (Err.NotSupported etype)) := by
      cases etype with
      | WRITE_ROWS_EVENTv1 => exact absurd (by decide) hnot
      | WRITE_ROWS_EVENTv2 => exact absurd (by decide) hnot
      | UPDATE_ROWS_EVENTv1 => exact absurd (by decide) hnot
      | UPDATE_ROWS_EVENTv2 => exact absurd (by decide) hnot
      | DELETE_ROWS_EVENTv1 => exact absurd (by decide) hnot
      | DELETE_ROWS_EVENTv2 => exact absurd (by decide) hnot
      | OTHER_EVENT tag => simp [handleRowsEvent, hft]
    exact ⟨hh, by simp [runLoopAux, stepLoop, hh]⟩

/-- C3 witness: a WRITE v1 event dispatches with the insert action; subtype
tag 25 yields the not-supported error and stops the loop. -/
theorem rowsEventClassificationWitness :
    handleRowsEvent exCanal ⟨⟨EventType.WRITE_ROWS_EVENTv1, 50⟩,
        EventData.RowsEvent "shop" "orders" 7 []⟩ =
      (Action.resolveTable 7 "orders" ::
          (travelAux InsertAction { Name := "orders" } [] 0 exCanal.handlers).1,
        (travelAux InsertAction { Name := "orders" } [] 0 exCanal.handlers).2) ∧
    (handleRowsEvent exCanal ⟨⟨EventType.OTHER_EVENT 25, 60⟩,
        EventData.RowsEvent "shop" "orders" 7 []⟩ =
      ([Action.resolveTable 7 "orders"],
        some (Err.NotSupported (EventType.OTHER_EVENT 25))) ∧
      runLoopAux exCanal st0 [StreamItem.eventItem ⟨⟨EventType.OTHER_EVENT 25, 60⟩,
          EventData.RowsEvent "shop" "orders" 7 []⟩ false] =
        (Sum.inr (Err.Wrap "[binlogsync] handleRowsEvent"
            (Err.NotSupported (EventType.OTHER_EVENT 25))),
          [Action.getEvent 2, Action.resolveTable 7 "orders"])) :=
  ⟨(rowsEventClassification exCanal EventType.WRITE_ROWS_EVENTv1 50 "shop" "orders" 7 []
      { Name := "orders" } st0 false [] rfl rfl).1 (Or.inl rfl),
    (rowsEventClassification exCanal (EventType.OTHER_EVENT 25) 60 "shop" "orders" 7 []
      { Name := "orders" } st0 false [] rfl rfl).2.2.2 (by decide)⟩

lemma travelAux_ok_cons (action : String) (t : Table) (rows : List Row) (i : Nat)
    (h : RowsEventHandler) (rest : List RowsEventHandler)
    (hok : h.onRow action t rows = none) :
    travelAux action t rows i (h :: rest) =
      (Action.dispatch i action t rows :: (travelAux action t rows (i + 1) rest).1,
        (travelAux action t rows (i + 1) rest).2) := by
  simp [travelAux, hok]

lemma travelAux_err_cons (action : String) (t : Table) (rows : List Row) (i code : Nat)
    (h : RowsEventHandler) (rest : List RowsEventHandler)
    (herr : h.onRow action t rows = some code) :
    travelAux action t rows i (h :: rest) =
      ([Action.dispatch i action t rows], some (Err.HandlerError i code)) := by
  simp [travelAux, herr]

lemma travelAux_firstErr (action : String) (t : Table) (rows : List Row) :
    ∀ (hs : List RowsEventHandler) (i k code : Nat) (hk : k < hs.length),
    (∀ j (hj : j < k), (hs.get ⟨j, Nat.lt_trans hj hk⟩).onRow action t rows = none) →
    (hs.get ⟨k, hk⟩).onRow action t rows = some code →
    travelAux action t rows i hs =
      ((List.range (k + 1)).map (fun j => Action.dispatch (i + j) action t rows),
        some (Err.HandlerError (i + k) code)) := by
  intro hs
  induction hs with
  | nil => intro i k code hk; exact absurd hk (Nat.not_lt_zero k)
  | cons h rest ih =>
    intro i k code hk hprev hlast
    cases k with
    | zero =>
      have hh : h.onRow action t rows = some code := hlast
      rw [travelAux_err_cons action t rows i code h rest hh]
      have h1 : List.range 1 = [0] := rfl
      rw [h1]
      simp
    | succ k =>
      have hh : h.onRow action t rows = none := hprev 0 (Nat.succ_pos k)
      rw [travelAux_ok_cons action t rows i h rest hh]
      have hk2 : k < rest.length := Nat.lt_of_succ_lt_succ hk
      have ih2 := ih (i + 1) k code hk2
        (fun j hj => hprev (j + 1) (Nat.succ_lt_succ hj)) hlast
      rw [ih2]
      have harith : ∀ j : Nat, i + 1 + j = i + (j + 1) := by intro j; omega
      have hmap : (List.range (k + 1 + 1)).map
            (fun j => Action.dispatch (i + j) action t rows) =
          Action.dispatch i action t rows ::
            (List.range (k + 1)).map (fun j => Action.dispatch (i + 1 + j) action t rows) := by
        rw [List.range_succ_eq_map, List.map_cons, List.map_map]
        refine congrArg₂ List.cons (by simp) ?_
        refine List.map_congr_left ?_
        intro j hj
        simp [Function.comp, harith j]
      rw [hmap]
      have hidx : i + (k + 1) = i + 1 + k := by omega
      rw [hidx]

/-- C5: handlers receive a dispatched row change synchronously in
registration order, the first handler returning an error (index `k`) aborts
dispatch — exactly the handlers at indices 0..k are invoked — and that
error propagates out of `handleRowsEvent`, terminating the streaming loop
with it. -/
theorem dispatchFailFast :
    ∀ (hs : List RowsEventHandler) (action : String) (t : Table) (rows : List Row)
      (k code : Nat) (hk : k < hs.length),
    (∀ j (hj : j < k), (hs.get ⟨j, Nat.lt_trans hj hk⟩).onRow action t rows = none) →
    (hs.get ⟨k, hk⟩).onRow action t rows = some code →
    travelAux action t rows 0 hs =
      ((List.range (k + 1)).map (fun j => Action.dispatch j action t rows),
        some (Err.HandlerError k code)) ∧
    (∀ (c : Canal) (s : LoopState) (lp tid : Nat) (schema table : String) (sf : Bool)
        (rest : List StreamItem),
      c.handlers = hs → c.dbName = schema → c.findTable tid table = Except.ok t →
      action = InsertAction →
      runLoopAux c s (StreamItem.eventItem
          ⟨⟨EventType.WRITE_ROWS_EVENTv1, lp⟩, EventData.RowsEvent schema table tid rows⟩ sf
        :: rest) =
        (Sum.inr (Err.Wrap "[binlogsync] handleRowsEvent" (Err.HandlerError k code)),
          Action.getEvent 2 :: Action.resolveTable tid table ::
            (List.range (k + 1)).map (fun j => Action.dispatch j InsertAction t rows))) := by
  intro hs action t rows k code hk hprev hlast
  have h0 := travelAux_firstErr action t rows hs 0 k code hk hprev hlast
  have hmap0 : (List.range (k + 1)).map (fun j => Action.dispatch (0 + j) action t rows) =
      (List.range (k + 1)).map (fun j => Action.dispatch j action t rows) := by
    refine List.map_congr_left ?_
    intro j hj
    simp
  rw [hmap0, Nat.zero_add] at h0
  refine ⟨h0, ?_⟩
  intro c s lp tid schema table sf rest hhs hdb hft hact
  subst hhs
  subst hdb
  subst hact
  have hh : handleRowsEvent c
      ⟨⟨EventType.WRITE_ROWS_EVENTv1, lp⟩, EventData.RowsEvent c.dbName table tid rows⟩ =
      (Action.resolveTable tid table ::
          (List.range (k + 1)).map (fun j => Action.dispatch j InsertAction t rows),
        some (Err.HandlerError k code)) := by
    simp [handleRowsEvent, hft, h0]
  simp [runLoopAux, stepLoop, hh]

/-- C5 witness: with handlers [ok, err, ok] the erring second handler
(index 1, code 7) is reached, the third is never invoked, and the loop
terminates with the propagated error. -/
theorem dispatchFailFastWitness :
    travelAux InsertAction { Name := "orders" } [] 0 [okHandler, errHandler, okHandler] =
      ((List.range 2).map (fun j => Action.dispatch j InsertAction { Name := "orders" } []),
        some (Err.HandlerError 1 7)) ∧
    runLoopAux canal3 st0 [StreamItem.eventItem
        ⟨⟨EventType.WRITE_ROWS_EVENTv1, 88⟩, EventData.RowsEvent "shop" "orders" 3 []⟩ false] =
      (Sum.inr (Err.Wrap "[binlogsync] handleRowsEvent" (Err.HandlerError 1 7)),
        Action.getEvent 2 :: Action.resolveTable 3 "orders" ::
          (List.range 2).map (fun j => Action.dispatch j InsertAction { Name := "orders" } [])) :=
  have hmain := dispatchFailFast [okHandler, errHandler, okHandler] InsertAction
    { Name := "orders" } [] 1 7 (by decide)
    (fun j hj => by
      have hj0 : j = 0 := Nat.lt_one_iff.mp hj
      subst hj0
      rfl)
    rfl
  ⟨hmain.1, hmain.2 canal3 st0 88 3 "shop" "orders" false [] rfl rfl rfl rfl⟩

lemma compare_neg_iff (xf yf : String) (xp yp : Nat) :
    MasterStatus.Compare ⟨xf, xp⟩ ⟨yf, yp⟩ = -1 ↔
      (xf < yf ∨ (xf = yf ∧ xp < yp)) := by
  simp only [MasterStatus.Compare]
  rcases lt_trichotomy xf yf with h | h | h
  · simp [h]
  · subst h
    rcases lt_trichotomy xp yp with h2 | h2 | h2
    · simp [h2]
    · subst h2
      simp
    · simp [h2, lt_asymm h2, Nat.lt_asymm h2]
  · simp [h, lt_asymm h, (ne_of_lt h).symm, le_of_lt h]

lemma compare_zero_iff (xf yf : String) (xp yp : Nat) :
    MasterStatus.Compare ⟨xf, xp⟩ ⟨yf, yp⟩ = 0 ↔
      (⟨xf, xp⟩ : MasterStatus) = ⟨yf, yp⟩ := by
  simp only [MasterStatus.Compare]
  rcases lt_trichotomy xf yf with h | h | h
  · simp [h, ne_of_lt h]
  · subst h
    rcases lt_trichotomy xp yp with h2 | h2 | h2
    · simp [h2, Nat.ne_of_lt h2]
    · subst h2
      simp
    · simp [h2, Nat.lt_asymm h2, (Nat.ne_of_lt h2).symm, Nat.le_of_lt h2]
  · simp [h, lt_asymm h, (ne_of_lt h).symm, le_of_lt h]

lemma compare_pos_iff (xf yf : String) (xp yp : Nat) :
    MasterStatus.Compare ⟨xf, xp⟩ ⟨yf, yp⟩ = 1 ↔
      (yf < xf ∨ (yf = xf ∧ yp < xp)) := by
  simp only [MasterStatus.Compare]
  rcases lt_trichotomy xf yf with h | h | h
  · simp [h, lt_asymm h, (ne_of_lt h).symm, le_of_lt h]
  · subst h
    rcases lt_trichotomy xp yp with h2 | h2 | h2
    · simp [h2, Nat.lt_asymm h2, (Nat.ne_of_lt h2).symm, Nat.le_of_lt h2]
    · subst h2
      simp
    · simp [h2, Nat.lt_asymm h2]
  · have hle : yf.data ≤ xf.data := le_of_lt (String.lt_iff_toList_lt.mp h)
    simp [h, hle]

lemma compare_trichotomy (x y : MasterStatus) :
    MasterStatus.Compare x y = -1 ∨ MasterStatus.Compare x y = 0 ∨
      MasterStatus.Compare x y = 1 := by
  simp only [MasterStatus.Compare]
  split_ifs <;> simp

/-- C7: `Compare` is the total order that compares the segment (file) name
lexicographically first and the numeric offset only on equal segments,
always returning -1, 0 or 1, with segment ordering dominating offset
ordering; the five vectors of TestMasterStatus_Compare and the spec example
{"log.1",200} < {"log.2",1} hold. -/
theorem comparePositionTotalOrder :
    ∀ a b : MasterStatus,
    (MasterStatus.Compare a b = -1 ↔
      (a.File < b.File ∨ (a.File = b.File ∧ a.Position < b.Position))) ∧
    (MasterStatus.Compare a b = 0 ↔ a = b) ∧
    (MasterStatus.Compare a b = 1 ↔
      (b.File < a.File ∨ (b.File = a.File ∧ b.Position < a.Position))) ∧
    (MasterStatus.Compare a b = -1 ∨ MasterStatus.Compare a b = 0 ∨
      MasterStatus.Compare a b = 1) ∧
    MasterStatus.Compare ⟨"log.1", 200⟩ ⟨"log.2", 1⟩ = -1 ∧
    MasterStatus.Compare ⟨"mysql-bin.000001", 3⟩ ⟨"mysql-bin.000001", 4⟩ = -1 ∧
    MasterStatus.Compare ⟨"mysql-bin.000001", 3⟩ ⟨"mysql-bin.000001", 3⟩ = 0 ∧
    MasterStatus.Compare ⟨"mysql-bin.000001", 3⟩ ⟨"mysql-bin.000001", 2⟩ = 1 ∧
    MasterStatus.Compare ⟨"mysql-bin.000001", 3⟩ ⟨"mysql-bin.000002", 2⟩ = -1 ∧
    MasterStatus.Compare ⟨"mysql-bin.000003", 1⟩ ⟨"mysql-bin.000002", 2⟩ = 1 := by
  intro a b
  obtain ⟨af, ap⟩ := a
  obtain ⟨bf, bp⟩ := b
  have hlog : ("log.1" : String) < "log.2" :=
    String.lt_iff_toList_lt.mpr (by decide)
  have h12 : ("mysql-bin.000001" : String) < "mysql-bin.000002" :=
    String.lt_iff_toList_lt.mpr (by decide)
  have h23 : ("mysql-bin.000002" : String) < "mysql-bin.000003" :=
    String.lt_iff_toList_lt.mpr (by decide)
  refine ⟨compare_neg_iff af bf ap bp, compare_zero_iff af bf ap bp,
    compare_pos_iff af bf ap bp, compare_trichotomy ⟨af, ap⟩ ⟨bf, bp⟩,
    (compare_neg_iff "log.1" "log.2" 200 1).mpr (Or.inl hlog),
    (compare_neg_iff "mysql-bin.000001" "mysql-bin.000001" 3 4).mpr
      (Or.inr ⟨rfl, by omega⟩),
    (compare_zero_iff "mysql-bin.000001" "mysql-bin.000001" 3 3).mpr rfl,
    (compare_pos_iff "mysql-bin.000001" "mysql-bin.000001" 3 2).mpr
      (Or.inr ⟨rfl, by omega⟩),
    (compare_neg_iff "mysql-bin.000001" "mysql-bin.000002" 3 2).mpr (Or.inl h12),
    (compare_pos_iff "mysql-bin.000003" "mysql-bin.000002" 1 2).mpr (Or.inl h23)⟩

lemma masterSaveRun_no_wrote :
    ∀ (calls : List (Nat × Bool)) (hw : Bool) (st : SaverState),
    (∀ c ∈ calls, c.1 < st.masterLastSaveTime + 1000) →
    (masterSaveRun hw st calls).count SaveResult.wrote = 0 := by
  intro calls
  induction calls with
  | nil => intro hw st h; rfl
  | cons c calls ih =>
    intro hw st h
    have ht : c.1 < st.masterLastSaveTime + 1000 := h c (List.mem_cons_self c calls)
    have hstep : masterSave hw c.2 st c.1 = (st, SaveResult.skippedRecent) := by
      simp [masterSave, ht]
    simp only [masterSaveRun, hstep, List.count_cons]
    have hrest := ih hw st (fun d hd => h d (List.mem_cons_of_mem c hd))
    simp [hrest]

lemma masterSaveRun_burst :
    ∀ (calls : List (Nat × Bool)) (lo : Nat) (hw : Bool) (st : SaverState),
    (∀ c ∈ calls, lo ≤ c.1 ∧ c.1 < lo + 1000) →
    (masterSaveRun hw st calls).count SaveResult.wrote ≤ 1 := by
  intro calls lo
  induction calls with
  | nil => intro hw st h; simp [masterSaveRun]
  | cons c calls ih =>
    intro hw st h
    obtain ⟨hlo, hhi⟩ := h c (List.mem_cons_self c calls)
    have hrestwin : ∀ d ∈ calls, lo ≤ d.1 ∧ d.1 < lo + 1000 :=
      fun d hd => h d (List.mem_cons_of_mem c hd)
    by_cases hgate : c.1 < st.masterLastSaveTime + 1000
    · have hstep : masterSave hw c.2 st c.1 = (st, SaveResult.skippedRecent) := by
        simp [masterSave, hgate]
      simp only [masterSaveRun, hstep, List.count_cons]
      simpa using ih hw st hrestwin
    · cases hw with
      | false =>
        have hstep : masterSave false c.2 st c.1 = (st, SaveResult.noWriter) := by
          simp [masterSave, hgate]
        simp only [masterSaveRun, hstep, List.count_cons]
        simpa using ih false st hrestwin
      | true =>
        cases hwf : c.2 with
        | true =>
          have hstep : masterSave true c.2 st c.1 = (st, SaveResult.writeFailed) := by
            simp [masterSave, hgate, hwf]
          simp only [masterSaveRun, hstep, List.count_cons]
          simpa using ih true st hrestwin
        | false =>
          have hstep : masterSave true c.2 st c.1 =
              ({ masterLastSaveTime := c.1 }, SaveResult.wrote) := by
            simp [masterSave, hgate, hwf]
          have hzero : (masterSaveRun true { masterLastSaveTime := c.1 } calls).count
              SaveResult.wrote = 0 := by
            apply masterSaveRun_no_wrote
            intro d hd
            have := hrestwin d hd
            show d.1 < c.1 + 1000
            omega
          simp [masterSaveRun, hstep, List.count_cons, hzero]

/-- C8 counterexample: with a failing checkpoint store (every
`BackendPosition.Write` errors) and a last successful save at time 0, two
persist calls at 1500 and 1600 ms — i.e. within one 100 ms sub-second
window — both pass the one-second gate (which is measured from the last
SUCCESSFUL save, never advanced on failure) and both issue a store write,
so a sub-second burst performs two checkpoint-store writes, not at most
one. -/
theorem persistBurstCx :
    masterSaveRun true { masterLastSaveTime := 0 } [(1500, true), (1600, true)] =
      [SaveResult.writeFailed, SaveResult.writeFailed] ∧
    ((masterSaveRun true { masterLastSaveTime := 0 }
      [(1500, true), (1600, true)]).countP touchesStore) = 2 := by
  exact ⟨rfl, rfl⟩

/-- C8 amended: `masterSave` issues a checkpoint-store write only when at
least one second has elapsed since the last successful persist, and is
otherwise — and when no checkpoint store is configured — a silent no-op
returning no error; the debounce timestamp advances only on a successful
write, so a burst of calls within a sub-second window produces at most one
SUCCESSFUL store write, while failed writes leave the timestamp unchanged
and each further call of the burst past the gate issues another store
write. -/
theorem persistDebouncedAmended :
    ∀ (hw wf : Bool) (st : SaverState) (now : Nat) (calls : List (Nat × Bool)) (lo : Nat),
    (now < st.masterLastSaveTime + 1000 →
      masterSave hw wf st now = (st, SaveResult.skippedRecent)) ∧
    (st.masterLastSaveTime + 1000 ≤ now → hw = false →
      masterSave hw wf st now = (st, SaveResult.noWriter)) ∧
    (st.masterLastSaveTime + 1000 ≤ now → hw = true → wf = true →
      masterSave hw wf st now = (st, SaveResult.writeFailed)) ∧
    (st.masterLastSaveTime + 1000 ≤ now → hw = true → wf = false →
      masterSave hw wf st now = ({ masterLastSaveTime := now }, SaveResult.wrote)) ∧
    ((∀ c ∈ calls, lo ≤ c.1 ∧ c.1 < lo + 1000) →
      (masterSaveRun hw st calls).count SaveResult.wrote ≤ 1) := by
  intro hw wf st now calls lo
  refine ⟨?_, ?_, ?_, ?_, fun h => masterSaveRun_burst calls lo hw st h⟩
  · intro hgate
    simp [masterSave, hgate]
  · intro hgate hhw
    subst hhw
    have hlt : ¬ now < st.masterLastSaveTime + 1000 := by omega
    simp [masterSave, hlt]
  · intro hgate hhw hwf
    subst hhw
    subst hwf
    have hlt : ¬ now < st.masterLastSaveTime + 1000 := by omega
    simp [masterSave, hlt]
  · intro hgate hhw hwf
    subst hhw
    subst hwf
    have hlt : ¬ now < st.masterLastSaveTime + 1000 := by omega
    simp [masterSave, hlt]

/-- C8 amended witness: concrete calls exercise all four outcomes (gated
no-op at 500 ms, no-writer no-op, failed write, successful write at
1500 ms), and a burst of three succeeding calls at 1500, 1600 and 1900 ms
after a last save at 0 yields at most one successful write. -/
theorem persistDebouncedAmendedWitness :
    masterSave true false { masterLastSaveTime := 0 } 500 =
      ({ masterLastSaveTime := 0 }, SaveResult.skippedRecent) ∧
    masterSave false false { masterLastSaveTime := 0 } 1500 =
      ({ masterLastSaveTime := 0 }, SaveResult.noWriter) ∧
    masterSave true true { masterLastSaveTime := 0 } 1500 =
      ({ masterLastSaveTime := 0 }, SaveResult.writeFailed) ∧
    masterSave true false { masterLastSaveTime := 0 } 1500 =
      ({ masterLastSaveTime := 1500 }, SaveResult.wrote) ∧
    (masterSaveRun true { masterLastSaveTime := 0 }
      [(1500, false), (1600, false), (1900, false)]).count SaveResult.wrote ≤ 1 :=
  ⟨(persistDebouncedAmended true false { masterLastSaveTime := 0 } 500 [] 0).1 (by decide),
    (persistDebouncedAmended false false { masterLastSaveTime := 0 } 1500 [] 0).2.1
      (by decide) rfl,
    (persistDebouncedAmended true true { masterLastSaveTime := 0 } 1500 [] 0).2.2.1
      (by decide) rfl rfl,
    (persistDebouncedAmended true false { masterLastSaveTime := 0 } 1500 [] 0).2.2.2.1
      (by decide) rfl rfl,
    (persistDebouncedAmended true false { masterLastSaveTime := 0 } 0
      [(1500, false), (1600, false), (1900, false)] 1500).2.2.2.2 (by decide)⟩

end Binlogsync
